import Mathlib

/-!
Verification of the operator-overloading dispatch engine
(`src/shim/shim.js` of tc39/proposal-operator-overloading).

The development is a shallow embedding of the shim: each JavaScript
function of the dispatch engine is translated to a Lean definition of
the same name, and the claims of the specification are settled as
theorems about those definitions.

Modelling conventions:
* JavaScript numbers are modelled as `Int` plus a distinguished `NaN`
  value (`JSVal.nanV`); fractional values are not modelled, and the
  string-to-number coercion is a simplified concrete parse (an
  unparsable string coerces to `NaN`) used identically on the shim
  side and on the native-semantics side.  `NaN` matters: the native
  `<=`/`>=` return `false` when the underlying comparison is
  undefined, while the shim computes them by negating a less-than.
* Operator implementations stored in tables are identifiers (`FnId`):
  the built-in `identityOperators` entries evaluate to the modelled
  native semantics, user-supplied functions are uninterpreted and
  resolved through an environment `Env`.
* Thrown `TypeError`s become `Except.error (Err.typeError msg)`.
* A JavaScript `Set` of permitted ordinals becomes a `Finset Nat`.
-/

namespace OpShim

/-- A thrown JavaScript error (the shim only ever throws `TypeError`). -/
inductive Err where
  | typeError (msg : String)
deriving DecidableEq

/-- An operator implementation stored in a table: either one of the
built-in `identityOperators` closures (which apply the native operator
`op`), or a user-supplied function, referenced by an index into an
environment. -/
inductive FnId where
  | prim (op : String)
  | user (k : Nat)
deriving DecidableEq

/-- A cleaned operator table: operator name to function, as produced by
`cleanTable` (so every stored value is a function). JavaScript objects
keep string keys in insertion order, hence an association list. -/
abbrev Table := List (String × FnId)

/-- The value stored in the `OpenOperators` field.  `Number` and
`BigInt` store a JavaScript `Set` (which has a `has` method); the
source stores a plain array for `String` (shim.js line 109), which has
no `has` method, so calling `.has` on it throws. -/
inductive OpenOps where
  | set (elems : List String)
  | arr (elems : List String)
deriving DecidableEq

/-- An operator set record (shim.js `set` objects).  The built-in
`Number` set has no `LeftOperatorDefinitions`/`RightOperatorDefinitions`
fields in the source; they are modelled as `[]`, which is never
observable because ordinal `0` is minimal and those fields are only
indexed for the lower-ordinal operand. -/
structure OperatorSetDef where
  OperatorCounter : Nat
  SelfOperatorDefinition : Table
  LeftOperatorDefinitions : List (Option Table)
  RightOperatorDefinitions : List (Option Table)
  OpenOperators : OpenOps
deriving DecidableEq

/-- The outcome of calling an object's `valueOf`/`toString` method in
`ToPrimitive`: the method may return an object (whose identity is
irrelevant to `ToPrimitive`, which only tests `isObject` and moves on)
or a primitive value, recorded via the injection below. -/
inductive CoerceRet where
  | objRet
  | numRet (n : Int)
  | nanRet
  | bigintRet (n : Int)
  | strRet (s : String)
  | boolRet (b : Bool)
  | nullRet
  | undefRet
deriving DecidableEq

/-- A JavaScript runtime value, restricted to what the dispatch engine
inspects: primitives, and objects carrying an optional `[OperatorSet]`
tag together with the behaviour of their `valueOf`/`toString` methods
(`none` = no such method is a function). -/
inductive JSVal where
  | num (n : Int)
  | nanV
  | bigintV (n : Int)
  | str (s : String)
  | boolV (b : Bool)
  | nullV
  | undefV
  | obj (tag : Option OperatorSetDef) (valueOfR : Option CoerceRet) (toStringR : Option CoerceRet)
deriving DecidableEq

/-- Reading the result of a coercion method back as a value (an
object result is represented by an untagged plain object, which is all
`ToPrimitive` ever observes about it). -/
def CoerceRet.toVal : CoerceRet → JSVal
  | .objRet => .obj none none none
  | .numRet n => .num n
  | .nanRet => .nanV
  | .bigintRet n => .bigintV n
  | .strRet s => .str s
  | .boolRet b => .boolV b
  | .nullRet => .nullV
  | .undefRet => .undefV

/-- shim.js line 14. -/
def binaryOperators : List String :=
  ["-", "*", "/", "%", "**", "&", "^", "|", "<<", ">>", ">>>", "==", "+", "<"]

/-- shim.js line 16. -/
def unaryOperators : List String := ["pos", "neg", "++", "--", "~"]

/-- shim.js line 18. -/
def allOperators : List String := binaryOperators ++ unaryOperators ++ ["[]", "[]="]

/-- shim.js lines 24-82: every entry applies the corresponding native
operator, so each entry is the `FnId.prim` identifier for its own key. -/
def identityOperators : Table :=
  (binaryOperators ++ unaryOperators).map (fun op => (op, FnId.prim op))

/-- shim.js lines 85-90. -/
def NumberOperatorSet : OperatorSetDef :=
  ⟨0, identityOperators, [], [], .set binaryOperators⟩

/-- shim.js lines 92-101. -/
def BigIntOperatorSet : OperatorSetDef :=
  ⟨1, identityOperators, [some identityOperators], [some identityOperators],
    .set binaryOperators⟩

/-- shim.js lines 103-110.  Note `OpenOperators` is an array in the
source, not a `Set`. -/
def StringOperatorSet : OperatorSetDef :=
  ⟨2, identityOperators,
    [some identityOperators, some identityOperators],
    [some identityOperators, some identityOperators],
    .arr ["+", "==", "<"]⟩

/-- `typeof x` on the modelled values (`typeof null` is `"object"`;
`NaN` is a number value). -/
def typeof : JSVal → String
  | .num _ => "number"
  | .nanV => "number"
  | .bigintV _ => "bigint"
  | .str _ => "string"
  | .boolV _ => "boolean"
  | .nullV => "object"
  | .undefV => "undefined"
  | .obj _ _ _ => "object"

/-- shim.js lines 371-373. -/
def isObject : JSVal → Bool
  | .obj _ _ _ => true
  | _ => false

/-- shim.js lines 367-369. -/
def isNumeric (x : JSVal) : Bool :=
  typeof x == "number" || typeof x == "bigint"

/-- shim.js lines 375-377. -/
def hasOverloadedOperators : JSVal → Bool
  | .obj tag _ _ => tag.isSome
  | _ => false

/-- The property read `x[OperatorSet]`, which goes through the
prototype chain: number/bigint/string primitives find the built-in
sets installed on their prototypes, objects find their own tag, and
boolean/null/undefined find nothing. -/
def getOperatorSet : JSVal → Option OperatorSetDef
  | .num _ => some NumberOperatorSet
  | .nanV => some NumberOperatorSet
  | .bigintV _ => some BigIntOperatorSet
  | .str _ => some StringOperatorSet
  | .obj tag _ _ => tag
  | .boolV _ => none
  | .nullV => none
  | .undefV => none

/-! ## Coercion layer -/

/-- shim.js lines 462-478: try `valueOf`, then `toString`; return the
first non-object result, else throw. Non-objects pass through. -/
def ToPrimitive : JSVal → Except Err JSVal
  | .obj _ v ts =>
    match v with
    | some r =>
      if isObject r.toVal then
        match ts with
        | some r2 =>
          if isObject r2.toVal then .error (.typeError "ToPrimitive failed")
          else .ok r2.toVal
        | none => .error (.typeError "ToPrimitive failed")
      else .ok r.toVal
    | none =>
      match ts with
      | some r2 =>
        if isObject r2.toVal then .error (.typeError "ToPrimitive failed")
        else .ok r2.toVal
      | none => .error (.typeError "ToPrimitive failed")
  | x => .ok x

/-- Decimal-digit accumulation over a character list: `none` once a
non-digit is seen. -/
def parseNatChars (cs : List Char) : Option Nat :=
  cs.foldl (fun acc c =>
    match acc with
    | none => none
    | some n => if c.isDigit then some (n * 10 + (c.toNat - 48)) else none) (some 0)

/-- Simplified string-to-number coercion: `none` is `NaN`.  The empty
string coerces to `0` (as in JavaScript); an optional leading minus
sign is accepted; any other unparsable (in particular non-integral)
string coerces to `NaN`.  The same function is used on the shim side
and on the native-semantics side. -/
def strToNumber (s : String) : Option Int :=
  match s.data with
  | [] => some 0
  | '-' :: rest =>
    if rest.isEmpty then none
    else (parseNatChars rest).map (fun n => -(n : Int))
  | cs => (parseNatChars cs).map (fun n => (n : Int))

/-- A numeric value or `NaN`, as a runtime value. -/
def numOfOpt : Option Int → JSVal
  | some n => .num n
  | none => .nanV

/-- `ToNumber` on a primitive value (the object case never arises: the
shim always applies it after `ToPrimitive`).  `undefined` gives
`NaN`. -/
def ToNumber : JSVal → Except Err JSVal
  | .num n => .ok (.num n)
  | .nanV => .ok .nanV
  | .bigintV _ => .error (.typeError "Cannot convert a BigInt value to a number")
  | .str s => .ok (numOfOpt (strToNumber s))
  | .boolV b => .ok (.num (if b then 1 else 0))
  | .nullV => .ok (.num 0)
  | .undefV => .ok .nanV
  | .obj _ _ _ => .error (.typeError "Cannot convert an object to a number")

/-- shim.js lines 379-383: `ToNumericOperand` — numeric and overloaded
values pass through, everything else is coerced with unary plus
(`ToNumber` after `ToPrimitive`). -/
def ToNumericOperand (a : JSVal) : Except Err JSVal :=
  if isNumeric a then .ok a
  else if hasOverloadedOperators a then .ok a
  else do ToNumber (← ToPrimitive a)

/-- shim.js lines 480-483. -/
def ToOperand (x : JSVal) : Except Err JSVal :=
  if hasOverloadedOperators x then .ok x else ToPrimitive x

/-! ## Native primitive semantics

The `identityOperators` table entries are closures of the form
`(a, b) => a - b`: they apply the language's native operator to their
arguments.  The following definitions model those native operators on
the value domain; `FnId.prim op` evaluates to them. -/

/-- `ToString` for string concatenation. -/
def jsToString : JSVal → String
  | .num n => toString n
  | .nanV => "NaN"
  | .bigintV n => toString n
  | .str s => s
  | .boolV b => if b then "true" else "false"
  | .nullV => "null"
  | .undefV => "undefined"
  | .obj _ _ _ => "[object Object]"

/-- The result of `ToNumeric`: a JavaScript number (possibly `NaN`,
represented by `none`) or a BigInt (which has no `NaN`). -/
inductive NumericOperand where
  | numO (v : Option Int)
  | bigO (v : Int)
deriving DecidableEq

/-- `ToNumeric` on a primitive. `undefined` and an unparsable string
give number `NaN`. -/
def primToNumeric : JSVal → Except Err NumericOperand
  | .num n => .ok (.numO (some n))
  | .nanV => .ok (.numO none)
  | .bigintV n => .ok (.bigO n)
  | .str s => .ok (.numO (strToNumber s))
  | .boolV b => .ok (.numO (some (if b then 1 else 0)))
  | .nullV => .ok (.numO (some 0))
  | .undefV => .ok (.numO none)
  | .obj _ _ _ => .error (.typeError "Cannot convert an object to a number")

/-- `ToNumeric` after `ToPrimitive`. -/
def toNumericValue (x : JSVal) : Except Err NumericOperand := do
  primToNumeric (← ToPrimitive x)

/-- Integer stand-ins for the native arithmetic operators.  The
bitwise and shift operators are concrete simplifications of the 32-bit
operations (the dispatch claims never depend on their numeric values;
the same function backs both the shim's `identityOperators` and the
native-semantics reference). -/
def intArith (op : String) (a b : Int) : Int :=
  if op == "-" then a - b
  else if op == "*" then a * b
  else if op == "/" then a / b
  else if op == "%" then a % b
  else if op == "**" then a ^ b.toNat
  else if op == "&" then Int.ofNat (a.natAbs &&& b.natAbs)
  else if op == "^" then Int.ofNat (a.natAbs ^^^ b.natAbs)
  else if op == "|" then Int.ofNat (a.natAbs ||| b.natAbs)
  else if op == "<<" then a * 2 ^ b.toNat
  else if op == ">>" then a / 2 ^ b.toNat
  else if op == ">>>" then a / 2 ^ b.toNat
  else if op == "+" then a + b
  else 0

/-- Lifting an arithmetic operator to JavaScript numbers: `NaN`
propagates. -/
def optArith (op : String) : Option Int → Option Int → Option Int
  | some a, some b => some (intArith op a b)
  | _, _ => none

/-- The native semantics of the numeric binary operators (`-`, `*`,
`/`, `%`, `**`, `&`, `^`, `|`, `<<`, `>>`, `>>>`): convert both
operands with `ToNumeric`, throw on mixing number and BigInt, apply
the integer operation (propagating `NaN` for numbers). -/
def jsArith (op : String) (a b : JSVal) : Except Err JSVal := do
  let x ← toNumericValue a
  let y ← toNumericValue b
  match x, y with
  | .numO u, .numO v => .ok (numOfOpt (optArith op u v))
  | .bigO p, .bigO q => .ok (.bigintV (intArith op p q))
  | _, _ => .error (.typeError "Cannot mix BigInt and other types")

/-- The native `+`: `ToPrimitive` both sides, concatenate if either is
a string, else numeric addition (throwing on number/BigInt mixing,
propagating `NaN`). -/
def jsAdd (a b : JSVal) : Except Err JSVal := do
  let lp ← ToPrimitive a
  let rp ← ToPrimitive b
  if typeof lp == "string" || typeof rp == "string" then
    .ok (.str (jsToString lp ++ jsToString rp))
  else do
    let x ← primToNumeric lp
    let y ← primToNumeric rp
    match x, y with
    | .numO u, .numO v => .ok (numOfOpt (optArith "+" u v))
    | .bigO p, .bigO q => .ok (.bigintV (p + q))
    | _, _ => .error (.typeError "Cannot mix BigInt and other types")

/-- The numeric value used by the native less-than on non-string
primitives (`none` is `NaN`/undefined: `undefined`, `NaN` itself and
unparsable strings). -/
def numForCompare : JSVal → Option Int
  | .num n => some n
  | .nanV => none
  | .bigintV n => some n
  | .str s => strToNumber s
  | .boolV b => some (if b then 1 else 0)
  | .nullV => some 0
  | .undefV => none
  | .obj _ _ _ => none

/-- The abstract relational comparison on primitives: `some r` for a
defined comparison (lexicographic for two strings, numeric otherwise),
`none` when the comparison is undefined (`NaN` involved). -/
def primLessThanOpt (a b : JSVal) : Option Bool :=
  match a, b with
  | .str s, .str t => some (decide (s < t))
  | _, _ =>
    match numForCompare a, numForCompare b with
    | some x, some y => some (decide (x < y))
    | _, _ => none

/-- The expression `a < b` on primitives: the abstract relational
comparison with an undefined result collapsed to `false`. -/
def primLessThan (a b : JSVal) : Bool :=
  (primLessThanOpt a b).getD false

/-- The native `<` expression (with the `ToPrimitive` step of the
abstract relational comparison). -/
def jsLessThan (a b : JSVal) : Except Err JSVal := do
  let lp ← ToPrimitive a
  let rp ← ToPrimitive b
  .ok (.boolV (primLessThan lp rp))

/-- The abstract relational comparison including its undefined result
(`none`), used by the native `<=`/`>=`, which map an undefined
comparison to `false` rather than negating it. -/
def arcNative (a b : JSVal) : Except Err (Option Bool) := do
  let lp ← ToPrimitive a
  let rp ← ToPrimitive b
  .ok (primLessThanOpt lp rp)

/-- Strict equality `===` restricted to non-objects (the only way the
shim uses it); `NaN` equals nothing, via the catch-all. -/
def jsStrictEq : JSVal → JSVal → Bool
  | .num n, .num m => n == m
  | .bigintV n, .bigintV m => n == m
  | .str s, .str t => s == t
  | .boolV a, .boolV b => a == b
  | .nullV, .nullV => true
  | .undefV, .undefV => true
  | _, _ => false

/-- Booleans compare as their numeric value under `==`. -/
def unBool : JSVal → JSVal
  | .boolV b => .num (if b then 1 else 0)
  | x => x

/-- Native loose equality `==` on primitives; `NaN` (and a string
coercing to `NaN` in a numeric comparison) equals nothing. -/
def jsLooseEq (a b : JSVal) : Bool :=
  match unBool a, unBool b with
  | .nullV, .undefV => true
  | .undefV, .nullV => true
  | .num n, .num m => n == m
  | .bigintV n, .bigintV m => n == m
  | .str s, .str t => s == t
  | .nullV, .nullV => true
  | .undefV, .undefV => true
  | .num n, .str s => (match strToNumber s with | some m => n == m | none => false)
  | .str s, .num n => (match strToNumber s with | some m => m == n | none => false)
  | .num n, .bigintV m => n == m
  | .bigintV m, .num n => m == n
  | .bigintV m, .str s => (match strToNumber s with | some x => m == x | none => false)
  | .str s, .bigintV m => (match strToNumber s with | some x => x == m | none => false)
  | _, _ => false

/-- The native semantics applied by an `identityOperators` entry for a
binary operator key. -/
def primBinary (op : String) (a b : JSVal) : Except Err JSVal :=
  if op == "==" then .ok (.boolV (jsLooseEq a b))
  else if op == "+" then jsAdd a b
  else if op == "<" then jsLessThan a b
  else jsArith op a b

/-- The native semantics applied by an `identityOperators` entry for a
unary operator key (`pos` is unary plus, which throws on BigInt;
`~n` is `-(n+1)`; `NaN` propagates). -/
def primUnary (op : String) (a : JSVal) : Except Err JSVal :=
  if op == "pos" then ToNumber a
  else do
    let v ← toNumericValue a
    let f : Int → Int := fun x =>
      if op == "neg" then -x
      else if op == "++" then x + 1
      else if op == "--" then x - 1
      else if op == "~" then -(x + 1)
      else 0
    match v with
    | .numO u => .ok (numOfOpt (u.map f))
    | .bigO x => .ok (.bigintV (f x))

/-! ## Dispatch engine -/

/-- Interpretation of user-supplied operator functions. -/
structure Env where
  bin : Nat → JSVal → JSVal → Except Err JSVal
  un : Nat → JSVal → Except Err JSVal

/-- Invoking a table entry as a binary operator function `fn(a, b)`. -/
def applyBin (env : Env) : FnId → JSVal → JSVal → Except Err JSVal
  | .prim op, a, b => primBinary op a b
  | .user k, a, b => env.bin k a b

/-- Invoking a table entry as a unary operator function `fn(a)`. -/
def applyUn (env : Env) : FnId → JSVal → Except Err JSVal
  | .prim op, a => primUnary op a
  | .user k, a => env.un k a

/-- The permitted-ordinal set threaded by `with operators from`
declarations (a JavaScript `Set` of integers). -/
abbrev Scope := Finset Nat

/-- shim.js line 350. -/
def defaultOperators : Scope := {0, 1, 2}

/-- shim.js lines 351-353: `_declareOperators(parent)` copies the
parent scope (the source's default argument is `defaultOperators`). -/
def _declareOperators (parent : Scope) : Scope := parent

/-- shim.js lines 355-365, in functional form: add the ordinal of each
granted class, failing if a class has no `[OperatorDefinition]`.  Each
element of `additions` is `klass[OperatorDefinition]`. -/
def _withOperatorsFrom (set : Scope) (additions : List (Option OperatorSetDef)) :
    Except Err Scope :=
  additions.foldlM (fun s klass =>
    match klass with
    | none => .error (.typeError
        "with operator from must be invoked with a class with overloaded operators")
    | some definition => .ok (insert definition.OperatorCounter s)) set

/-- shim.js lines 394-398: `assertFunction` throws this error when a
table entry is absent. -/
def noOverload (operator : String) : Err :=
  .typeError ("No overload found for " ++ operator)

/-- shim.js lines 385-392. -/
def checkPermitted (a : JSVal) (operatorSet : Scope) (operator : String) :
    Except Err Unit :=
  match getOperatorSet a with
  | none => .error (.typeError
      ("Cannot read OperatorCounter in evaluating " ++ operator))
  | some s =>
    if s.OperatorCounter ∈ operatorSet then .ok ()
    else .error (.typeError
      ("with operators from declaration missing before overload usage in evaluating "
        ++ operator))

/-- shim.js lines 400-423.  The identity test
`a[OperatorSet] === b[OperatorSet]` becomes structural equality of the
records, which coincides with identity for registry-produced sets
(distinct registrations always carry distinct counters).  The `none`
arms after a successful `checkPermitted` are unreachable. -/
def dispatchBinaryOperator (env : Env) (operator : String) (a b : JSVal)
    (operatorSet : Scope) : Except Err JSVal := do
  checkPermitted a operatorSet operator
  match getOperatorSet a with
  | none => .error (.typeError "unreachable")
  | some aSet =>
    if getOperatorSet b == some aSet then
      match aSet.SelfOperatorDefinition.lookup operator with
      | some fn => applyBin env fn a b
      | none => .error (noOverload operator)
    else do
      checkPermitted b operatorSet operator
      match getOperatorSet b with
      | none => .error (.typeError "unreachable")
      | some bSet =>
        let definitions :=
          if aSet.OperatorCounter < bSet.OperatorCounter then
            bSet.RightOperatorDefinitions.getD aSet.OperatorCounter none
          else
            aSet.LeftOperatorDefinitions.getD bSet.OperatorCounter none
        match definitions with
        | none => .error (noOverload operator)
        | some defs =>
          match defs.lookup operator with
          | some fn => applyBin env fn a b
          | none => .error (noOverload operator)

/-- shim.js lines 444-449. -/
def _numericBinaryOperate (env : Env) (operator : String) (a b : JSVal)
    (operatorSet : Scope) : Except Err JSVal :=
  if isNumeric a && isNumeric b then primBinary operator a b
  else do
    let a ← ToNumericOperand a
    let b ← ToNumericOperand b
    dispatchBinaryOperator env operator a b operatorSet

/-- shim.js lines 452-460. -/
def _unary (env : Env) (operator : String) (a : JSVal) (operatorSet : Scope) :
    Except Err JSVal :=
  if isNumeric a then primUnary operator a
  else do
    let a ← ToNumericOperand a
    checkPermitted a operatorSet operator
    match getOperatorSet a with
    | none => .error (.typeError "unreachable")
    | some aSet =>
      match aSet.SelfOperatorDefinition.lookup operator with
      | some fn => applyUn env fn a
      | none => .error (noOverload operator)

/-- Measure for the boolean-unwrapping recursion of the equality
comparison. -/
def boolCount : JSVal → Nat
  | .boolV _ => 1
  | _ => 0

/-- The final steps of the equality comparison (shim.js lines
496-499), reached once neither operand is a boolean. -/
def equalityTail (env : Env) (x y : JSVal) (operatorSet : Scope) :
    Except Err JSVal := do
  let x ← ToOperand x
  let y ← ToOperand y
  if !(hasOverloadedOperators x) && !(hasOverloadedOperators y) then
    .ok (.boolV (jsLooseEq x y))
  else dispatchBinaryOperator env "==" x y operatorSet

/-- shim.js lines 486-500.  The boolean cases in the source recurse
with `Number(x)`; the wildcard of the `y`-boolean case is enumerated so
the recursion is visibly decreasing. -/
def _abstractEqualityComparison (env : Env) (x y : JSVal) (operatorSet : Scope) :
    Except Err JSVal :=
  if typeof x == typeof y && !(isObject x) then .ok (.boolV (jsStrictEq x y))
  else
    match x, y with
    | .nullV, .undefV => .ok (.boolV true)
    | .undefV, .nullV => .ok (.boolV true)
    | .boolV bx, yy =>
      _abstractEqualityComparison env (.num (if bx then 1 else 0)) yy operatorSet
    | .num n, .boolV b2 =>
      _abstractEqualityComparison env (.num n) (.num (if b2 then 1 else 0)) operatorSet
    | .nanV, .boolV b2 =>
      _abstractEqualityComparison env .nanV (.num (if b2 then 1 else 0)) operatorSet
    | .bigintV n, .boolV b2 =>
      _abstractEqualityComparison env (.bigintV n) (.num (if b2 then 1 else 0)) operatorSet
    | .str s, .boolV b2 =>
      _abstractEqualityComparison env (.str s) (.num (if b2 then 1 else 0)) operatorSet
    | .nullV, .boolV b2 =>
      _abstractEqualityComparison env .nullV (.num (if b2 then 1 else 0)) operatorSet
    | .undefV, .boolV b2 =>
      _abstractEqualityComparison env .undefV (.num (if b2 then 1 else 0)) operatorSet
    | .obj t v ts, .boolV b2 =>
      _abstractEqualityComparison env (.obj t v ts) (.num (if b2 then 1 else 0)) operatorSet
    | _, _ => equalityTail env x y operatorSet
termination_by boolCount x + boolCount y
decreasing_by
  all_goals simp [boolCount]

/-- shim.js lines 503-511. -/
def _additionOperator (env : Env) (a b : JSVal) (operatorSet : Scope) :
    Except Err JSVal := do
  let a ← ToOperand a
  let b ← ToOperand b
  if typeof a == "string" || typeof b == "string" then jsAdd a b
  else dispatchBinaryOperator env "+" a b operatorSet

/-- JavaScript `ToBoolean`, used by the `!` in the `!=` and
swapped-relational paths. -/
def toBoolean : JSVal → Bool
  | .boolV b => b
  | .num n => n != 0
  | .nanV => false
  | .bigintV n => n != 0
  | .str s => s != ""
  | .nullV => false
  | .undefV => false
  | .obj _ _ _ => true

/-- shim.js lines 514-550. -/
def _abstractRelationalComparison (env : Env) (operator : String) (a b : JSVal)
    (operatorSet : Scope) : Except Err JSVal := do
  let a ← ToOperand a
  let b ← ToOperand b
  let flags : Option (Bool × Bool) :=
    if operator == "<" then some (false, false)
    else if operator == ">" then some (true, false)
    else if operator == "<=" then some (true, true)
    else if operator == ">=" then some (false, true)
    else none
  match flags with
  | none => .error (.typeError "")
  | some (swap, negate) => do
    let (a, b) := if swap then (b, a) else (a, b)
    let result ←
      if !(hasOverloadedOperators a) && !(hasOverloadedOperators b) then
        jsLessThan a b
      else dispatchBinaryOperator env "<" a b operatorSet
    if negate then .ok (.boolV (!(toBoolean result))) else .ok result

/-- shim.js lines 425-441. -/
def _binary (env : Env) (operator : String) (a b : JSVal) (operatorSet : Scope) :
    Except Err JSVal :=
  if operator == "+" then _additionOperator env a b operatorSet
  else if operator == "==" then _abstractEqualityComparison env a b operatorSet
  else if operator == "!=" then
    match _abstractEqualityComparison env a b operatorSet with
    | .ok v => .ok (.boolV (!(toBoolean v)))
    | .error e => .error e
  else if operator == "<" || operator == ">" || operator == "<=" || operator == ">=" then
    _abstractRelationalComparison env operator a b operatorSet
  else _numericBinaryOperate env operator a b operatorSet

/-! ## Registration -/

/-- A value found in an input table: a function, or anything else
(whose only relevant property is that it is not a function). -/
inductive TableVal where
  | fn (f : FnId)
  | notFn
deriving DecidableEq

/-- An author-supplied operator table: a JavaScript object, its string
keys in insertion order. -/
abbrev InTable := List (String × TableVal)

/-- shim.js lines 114-126: walk `operatorList`, skip absent keys, throw
on a non-function value, keep function entries.  Keys of `table`
outside `operatorList` are never examined. -/
def cleanTable (table : InTable) (operatorList : List String) : Except Err Table :=
  operatorList.foldlM (fun outTable operator =>
    match table.lookup operator with
    | none => .ok outTable
    | some TableVal.notFn => .error (.typeError "Operators must be functions")
    | some (TableVal.fn f) => .ok (outTable ++ [(operator, f)])) []

/-- The JavaScript call `openOperators.has(key)`: a `Set` answers
membership, an array has no `has` method, so the call itself throws. -/
def hasMethod : OpenOps → String → Except Err Bool
  | .set elems, key => .ok (elems.contains key)
  | .arr _, _ => .error (.typeError "OpenOperators.has is not a function")

/-- The per-key open-operator gate of `partitionTables` (shim.js lines
144-149 and 162-167). -/
def checkOpen (openOps : OpenOps) (table : Table) : Except Err Unit :=
  table.foldlM (fun _ kv => do
    let b ← hasMethod openOps kv.1
    if b then .ok ()
    else .error (.typeError
      ("the operator " ++ kv.1 ++ " may not be overloaded on the provided type"))) ()

/-- A cross-type table argument to `Operators`: the optional `left:`
and `right:` properties (each, when present, holding a class whose
`[OperatorDefinition]` may be absent), plus the operator entries. -/
structure CrossTableInput where
  left : Option (Option OperatorSetDef)
  right : Option (Option OperatorSetDef)
  entries : InTable

/-- The pair of sparse arrays built by `partitionTables`. -/
structure Partitioned where
  left : List (Option Table)
  right : List (Option Table)
deriving DecidableEq

/-- JavaScript sparse-array assignment `arr[i] = v` (padding holes with
`undefined`). -/
def sparseSet (l : List (Option Table)) (i : Nat) (v : Table) : List (Option Table) :=
  (l ++ List.replicate (i + 1 - l.length) none).set i (some v)

/-- shim.js lines 128-172. -/
def partitionTables (tables : List CrossTableInput) : Except Err Partitioned :=
  tables.foldlM (fun acc tbl => do
    let table ← cleanTable tbl.entries binaryOperators
    match tbl.left with
    | some leftTypeDef =>
      match tbl.right with
      | some _ => .error (.typeError "overload table must not be both left and right")
      | none =>
        match leftTypeDef with
        | none => .error (.typeError
            "the left: value must be a class with operators overloaded")
        | some leftSet => do
          checkOpen leftSet.OpenOperators table
          -- "Backwards" because this new operator type is on the right
          .ok (Partitioned.mk acc.left (sparseSet acc.right leftSet.OperatorCounter table))
    | none =>
      match tbl.right with
      | none => .error (.typeError "Either left: or right: must be provided")
      | some rightTypeDef =>
        match rightTypeDef with
        | none => .error (.typeError
            "the right: value must be a class with operators overloaded")
        | some rightSet => do
          checkOpen rightSet.OpenOperators table
          .ok (Partitioned.mk (sparseSet acc.left rightSet.OperatorCounter table) acc.right))
    (Partitioned.mk [] [])

/-- shim.js lines 174-184: validate the `open:` list against the full
operator set and build a JavaScript `Set` from it (`undefined` gives an
empty set). -/
def makeOpenSet (openIn : Option (List String)) : Except Err OpenOps :=
  match openIn with
  | none => .ok (OpenOps.set [])
  | some l => do
    l.foldlM (fun _ operator =>
      if allOperators.contains operator then .ok ()
      else .error (.typeError ("Unrecognized operator " ++ operator))) ()
    .ok (OpenOps.set l)

/-- The arguments of a call to `Operators`: the self table (with its
`open:` property split out, as `cleanTable` never reads it) and the
cross-type tables. -/
structure RegistrationInput where
  table : InTable
  openList : Option (List String)
  tables : List CrossTableInput

/-- shim.js lines 204-218, with the process-wide `OperatorCounter`
threaded explicitly.  `const counter = OperatorCounter++` runs before
any validation, so the returned counter is `counterState + 1` whether
or not registration succeeds. -/
def Operators (counterState : Nat) (inp : RegistrationInput) :
    Except Err OperatorSetDef × Nat :=
  let counter := counterState
  let result : Except Err OperatorSetDef := do
    let table ← cleanTable inp.table allOperators
    let lr ← partitionTables inp.tables
    let openOps ← makeOpenSet inp.openList
    .ok (OperatorSetDef.mk counter table lr.left lr.right openOps)
  (result, counterState + 1)

/-! ## Indexed-access overlay -/

/-- Classification of the numeric value returned by
`CanonicalNumericIndexString` for a canonical numeric string key:
an integer (never negative zero), negative zero, a non-integral finite
number (with its sign), `NaN`, or an infinity. -/
inductive NumKeyClass where
  | intVal (i : Int)
  | negZero
  | fracVal (neg : Bool)
  | nanVal
  | infVal
  | negInfVal
deriving DecidableEq

/-- Classification of a property key: either
`CanonicalNumericIndexString` returns `undefined` (a non-numeric
string) or it returns a number. -/
inductive KeyClass where
  | nonNumeric
  | numeric (n : NumKeyClass)
deriving DecidableEq

/-- shim.js lines 194-198. -/
def IsInteger : NumKeyClass → Bool
  | .intVal _ => true
  | .negZero => true
  | _ => false

/-- The comparison `n < 0` on a classified numeric key. -/
def numKeyNeg : NumKeyClass → Bool
  | .intVal i => decide (i < 0)
  | .fracVal neg => neg
  | .negInfVal => true
  | _ => false

/-- The test `Object.is(n, -0)`. -/
def isNegZero : NumKeyClass → Bool
  | .negZero => true
  | _ => false

/-- shim.js lines 200-202. -/
def IsBadIndex (n : NumKeyClass) : Bool :=
  !(IsInteger n) || numKeyNeg n || isNegZero n

/-- The observable outcome of the proxy `get` trap: fall through to
ordinary property access, return `undefined` without consulting the
table, or invoke the `[]` table entry at index `i`. -/
inductive GetResult where
  | reflectGet
  | absent
  | invokeGet (i : Int)
deriving DecidableEq

/-- The comparison `n >= length` on a classified numeric key (only the
integer and negative-zero cases are reachable after `IsBadIndex`). -/
def numKeyGE (n : NumKeyClass) (len : Int) : Bool :=
  match n with
  | .intVal i => decide (len ≤ i)
  | .negZero => decide (len ≤ 0)
  | .infVal => true
  | _ => false

/-- The integer value of a classified key (only applied to good
indices, which are integers). -/
def numKeyToInt : NumKeyClass → Int
  | .intVal i => i
  | _ => 0

/-- shim.js lines 254-262: the `get` trap of the overlay proxy, with
`length` the freshly read `Number(proxy.length)`. -/
def proxyGet (key : KeyClass) (length : Int) : GetResult :=
  match key with
  | .nonNumeric => .reflectGet
  | .numeric n =>
    if IsBadIndex n then .absent
    else if numKeyGE n length then .absent
    else .invokeGet (numKeyToInt n)

/-! ## Reference definitions used by the theorems -/

/-- A concrete environment for closed evaluations. -/
def trivialEnv : Env := ⟨fun _ _ _ => .ok .undefV, fun _ _ => .ok .undefV⟩

/-- `PermissionScope`s are the scopes reachable through
`_declareOperators` / `_withOperatorsFrom`; they always contain the
three built-in ordinals. -/
def ValidScope (s : Scope) : Prop := 0 ∈ s ∧ 1 ∈ s ∧ 2 ∈ s

/-- A built-in numeric or textual operand (no `Overloaded` operand);
`NaN` is a numeric value. -/
inductive BuiltinVal where
  | num (n : Int)
  | nanB
  | bigintV (n : Int)
  | str (s : String)
deriving DecidableEq

def BuiltinVal.toJS : BuiltinVal → JSVal
  | .num n => .num n
  | .nanB => .nanV
  | .bigintV n => .bigintV n
  | .str s => .str s

/-- What `ToNumericOperand` produces on a built-in operand: numbers
and BigInts pass through, strings coerce to numbers (possibly
`NaN`). -/
def numCoerce : BuiltinVal → JSVal
  | .num n => .num n
  | .nanB => .nanV
  | .bigintV n => .bigintV n
  | .str s => numOfOpt (strToNumber s)

/-- Whether the abstract relational comparison of two (primitive)
values is defined, i.e. does not involve `NaN`. -/
def lessThanDefined (a b : JSVal) : Bool :=
  (primLessThanOpt a b).isSome

/-- The surface binary operators handled by `_binary`. -/
def surfaceBinaryOperators : List String :=
  ["-", "*", "/", "%", "**", "&", "^", "|", "<<", ">>", ">>>",
   "==", "!=", "+", "<", ">", "<=", ">="]

/-- The native semantics of a surface binary operator on primitive
values: the reference the fast path is compared against.  `!=` is the
negation of `==`.  The relational operators follow the abstract
relational comparison: `a < b` is `ARC(a, b)` with an undefined result
(`NaN`) mapped to `false`; `a > b` is `ARC(b, a)` likewise; `a <= b`
is `false` when `ARC(b, a)` is true **or undefined**, else `true`; and
`a >= b` likewise from `ARC(a, b)` — an undefined comparison is never
negated into `true`. -/
def nativeBinary (op : String) (a b : JSVal) : Except Err JSVal :=
  if op == "==" then .ok (.boolV (jsLooseEq a b))
  else if op == "!=" then .ok (.boolV (!(jsLooseEq a b)))
  else if op == "+" then jsAdd a b
  else if op == "<" then
    (arcNative a b).map (fun r => .boolV (r.getD false))
  else if op == ">" then
    (arcNative b a).map (fun r => .boolV (r.getD false))
  else if op == "<=" then
    (arcNative b a).map (fun r => .boolV (match r with | some v => !v | none => false))
  else if op == ">=" then
    (arcNative a b).map (fun r => .boolV (match r with | some v => !v | none => false))
  else jsArith op a b

/-- The native semantics of a unary operator on a primitive value. -/
def nativeUnary (op : String) (a : JSVal) : Except Err JSVal := primUnary op a

/-- The cross-type table entry the specification's dispatch rule
selects when the left operand carries `sa` and the right operand
carries `sb` (distinct ordinals): the higher-ordinal set's
`LeftOperatorDefinitions` when it is on the left, its
`RightOperatorDefinitions` when it is on the right, indexed by the
lower ordinal. -/
def specCrossLookup (op : String) (sa sb : OperatorSetDef) : Option FnId :=
  let lower := if sa.OperatorCounter < sb.OperatorCounter then sa else sb
  let tables :=
    if sa.OperatorCounter < sb.OperatorCounter then sb.RightOperatorDefinitions
    else sa.LeftOperatorDefinitions
  match tables.getD lower.OperatorCounter none with
  | none => none
  | some t => t.lookup op

/-! ## Supporting lemmas -/

@[simp] theorem except_bind_ok {α β γ : Type} (v : β) (f : β → Except α γ) :
    (Except.ok v >>= f) = f v := rfl

@[simp] theorem except_bind_error {α β γ : Type} (e : α) (f : β → Except α γ) :
    ((Except.error e : Except α β) >>= f) = Except.error e := rfl

@[simp] theorem except_map_ok {α β γ : Type} (v : β) (f : β → γ) :
    ((Except.ok v : Except α β).map f) = Except.ok (f v) := rfl

@[simp] theorem except_map_error {α β γ : Type} (e : α) (f : β → γ) :
    ((Except.error e : Except α β).map f) = Except.error e := rfl

theorem lookup_map_prim (l : List String) (op : String) (h : op ∈ l) :
    (l.map (fun o => (o, FnId.prim o))).lookup op = some (FnId.prim op) := by
  induction l with
  | nil => cases h
  | cons hd tl ih =>
    simp only [List.map, List.lookup]
    by_cases hop : op = hd
    · subst hop; simp
    · have : (op == hd) = false := by simp [hop]
      rw [this]
      simp only [cond_false]
      exact ih (by
        rcases List.mem_cons.mp h with h1 | h2
        · exact absurd h1 hop
        · exact h2)

theorem identityOperators_lookup (op : String)
    (h : op ∈ binaryOperators ++ unaryOperators) :
    identityOperators.lookup op = some (FnId.prim op) :=
  lookup_map_prim _ op h

theorem ToPrimitive_ok_isObject {x v : JSVal} (h : ToPrimitive x = .ok v) :
    isObject v = false := by
  cases x with
  | obj t vr ts =>
    simp only [ToPrimitive] at h
    cases vr with
    | some r =>
      by_cases hr : isObject r.toVal = true
      · simp [hr] at h
        cases ts with
        | some r2 =>
          by_cases hr2 : isObject r2.toVal = true
          · simp [hr2] at h
          · simp [hr2] at h; subst h; simpa using hr2
        | none => simp at h
      · simp [hr] at h; subst h; simpa using hr
    | none =>
      cases ts with
      | some r2 =>
        by_cases hr2 : isObject r2.toVal = true
        · simp [hr2] at h
        · simp [hr2] at h; subst h; simpa using hr2
      | none => simp at h
  | num n => simp [ToPrimitive] at h; subst h; rfl
  | nanV => simp [ToPrimitive] at h; subst h; rfl
  | bigintV n => simp [ToPrimitive] at h; subst h; rfl
  | str s => simp [ToPrimitive] at h; subst h; rfl
  | boolV b => simp [ToPrimitive] at h; subst h; rfl
  | nullV => simp [ToPrimitive] at h; subst h; rfl
  | undefV => simp [ToPrimitive] at h; subst h; rfl

theorem not_object_not_overloaded {v : JSVal} (h : isObject v = false) :
    hasOverloadedOperators v = false := by
  cases v <;> simp_all [isObject, hasOverloadedOperators]

theorem ToPrimitive_error {x : JSVal} {e : Err}
    (h : ToPrimitive x = .error e) : e = .typeError "ToPrimitive failed" := by
  cases x with
  | obj t vr ts =>
    simp only [ToPrimitive] at h
    cases vr with
    | some r =>
      by_cases hr : isObject r.toVal = true
      · simp [hr] at h
        cases ts with
        | some r2 =>
          by_cases hr2 : isObject r2.toVal = true
          · simp [hr2] at h; exact h.symm
          · simp [hr2] at h
        | none => simp at h; exact h.symm
      · simp [hr] at h
    | none =>
      cases ts with
      | some r2 =>
        by_cases hr2 : isObject r2.toVal = true
        · simp [hr2] at h; exact h.symm
        · simp [hr2] at h
      | none => simp at h; exact h.symm
  | num n => simp [ToPrimitive] at h
  | nanV => simp [ToPrimitive] at h
  | bigintV n => simp [ToPrimitive] at h
  | str s => simp [ToPrimitive] at h
  | boolV b => simp [ToPrimitive] at h
  | nullV => simp [ToPrimitive] at h
  | undefV => simp [ToPrimitive] at h

theorem ToOperand_error {x : JSVal} {e : Err} (h : ToOperand x = .error e) :
    e = .typeError "ToPrimitive failed" := by
  unfold ToOperand at h
  by_cases hx : hasOverloadedOperators x = true
  · simp [hx] at h
  · simp [hx] at h; exact ToPrimitive_error h

theorem ToOperand_ok_not_overloaded {x v : JSVal}
    (hx : hasOverloadedOperators x = false) (h : ToOperand x = .ok v) :
    hasOverloadedOperators v = false := by
  unfold ToOperand at h
  rw [hx] at h
  simp at h
  exact not_object_not_overloaded (ToPrimitive_ok_isObject h)

theorem withOperatorsFrom_valid {s t : Scope}
    {adds : List (Option OperatorSetDef)}
    (h : _withOperatorsFrom s adds = .ok t) (hs : ValidScope s) : ValidScope t := by
  induction adds generalizing s with
  | nil =>
    simp only [_withOperatorsFrom, List.foldlM] at h
    cases h; exact hs
  | cons hd tl ih =>
    cases hd with
    | none => simp [_withOperatorsFrom, List.foldlM] at h
    | some d =>
      simp only [_withOperatorsFrom, List.foldlM] at h ⊢
      exact ih h ⟨Finset.mem_insert_of_mem hs.1,
        Finset.mem_insert_of_mem hs.2.1, Finset.mem_insert_of_mem hs.2.2⟩

theorem declareOperators_valid {p : Scope} (hp : ValidScope p) :
    ValidScope (_declareOperators p) := hp

theorem defaultOperators_valid : ValidScope defaultOperators := by
  refine ⟨?_, ?_, ?_⟩ <;> decide

instance {α β : Type} [DecidableEq α] [DecidableEq β] : DecidableEq (Except α β)
  | .ok a, .ok b =>
    if h : a = b then .isTrue (by rw [h])
    else .isFalse (by intro hh; cases hh; exact h rfl)
  | .ok _, .error _ => .isFalse (by intro h; cases h)
  | .error _, .ok _ => .isFalse (by intro h; cases h)
  | .error a, .error b =>
    if h : a = b then .isTrue (by rw [h])
    else .isFalse (by intro hh; cases hh; exact h rfl)

@[simp] theorem except_isOk_ok {α β : Type} (v : β) :
    (Except.ok v : Except α β).isOk = true := rfl

@[simp] theorem except_isOk_error {α β : Type} (e : α) :
    (Except.error e : Except α β).isOk = false := rfl

theorem cleanTable_foldl_isOk (tbl : InTable) :
    ∀ (ops : List String) (init : Table),
    ((List.foldlM (fun outTable operator =>
        match tbl.lookup operator with
        | none => Except.ok outTable
        | some TableVal.notFn => Except.error (Err.typeError "Operators must be functions")
        | some (TableVal.fn f) => Except.ok (outTable ++ [(operator, f)]))
      init ops).isOk = true) ↔
    ∀ op ∈ ops, tbl.lookup op ≠ some TableVal.notFn := by
  intro ops
  induction ops with
  | nil => intro init; simp [List.foldlM, pure, Except.pure]
  | cons hd tl ih =>
    intro init
    simp only [List.foldlM]
    cases h : tbl.lookup hd with
    | none => simp [h, ih]
    | some v =>
      cases v with
      | notFn => simp [h]
      | fn f => simp [h, ih]

theorem cleanTable_isOk (tbl : InTable) (ops : List String) :
    ((cleanTable tbl ops).isOk = true) ↔
    ∀ op ∈ ops, tbl.lookup op ≠ some TableVal.notFn :=
  cleanTable_foldl_isOk tbl ops []

/-! ## Claim theorems -/

/-- C4, counterexample: a registration whose self table holds a
non-function value under a recognized key fails, yet the process-wide
counter still advances from 3 to 4 — contrary to the claim that failed
registrations leave the counter unchanged. -/
theorem claim4_counterexample :
    ((Operators 3 ⟨[("-", TableVal.notFn)], none, []⟩).1.isOk = false) ∧
    (Operators 3 ⟨[("-", TableVal.notFn)], none, []⟩).2 = 4 := by
  exact ⟨by decide, by decide⟩

/-- C4, amended: `Operators` increments the process-wide ordinal
counter exactly once per call, whether or not the registration
succeeds — failed registrations also consume an ordinal, because
`const counter = OperatorCounter++` runs before any validation. -/
theorem claim4_amended (c : Nat) (inp : RegistrationInput) :
    (Operators c inp).2 = c + 1 := rfl

/-- C6, counterexample: a self table whose only key is the
unrecognized name `frobnicate` (holding a non-function value) is
accepted — the unknown key is silently ignored rather than rejected
with an `InvalidOperatorName` error, and registration succeeds with an
empty self table. -/
theorem claim6_counterexample :
    (Operators 3 ⟨[("frobnicate", TableVal.notFn)], none, []⟩).1 =
      .ok ⟨3, [], [], [], OpenOps.set []⟩ := by decide

/-- C6, amended: `cleanTable` ignores keys of the self table outside
the recognized operator list, so registration of a bare self table
succeeds exactly when no recognized operator key holds a non-function
value; unknown keys never cause a failure (the `Unrecognized operator`
check applies only to the `open:` list). -/
theorem claim6_amended (c : Nat) (tbl : InTable) :
    ((Operators c (RegistrationInput.mk tbl none [])).1.isOk = true) ↔
    ∀ op ∈ allOperators, tbl.lookup op ≠ some TableVal.notFn := by
  have h := cleanTable_isOk tbl allOperators
  unfold Operators
  cases hct : cleanTable tbl allOperators with
  | ok t =>
    rw [hct] at h
    simpa [partitionTables, List.foldlM, makeOpenSet] using h
  | error e =>
    rw [hct] at h
    simpa using h

/-- C6, witness: a table whose only key is unknown satisfies the
success criterion, hence registers successfully. -/
theorem claim6_amended_witness :
    ((Operators 3 (RegistrationInput.mk [("frobnicate", TableVal.notFn)] none [])).1.isOk
      = true) :=
  (claim6_amended 3 [("frobnicate", TableVal.notFn)]).mpr (by decide)

/-- C9: the overlay `get` trap invokes the indexed-get table entry
exactly on canonical integer keys in `[0, length)`; integer keys at or
beyond `length`, negative keys, negative zero and fractional keys
yield `undefined` without invoking the entry, and non-numeric keys
fall through to ordinary property access. -/
theorem claim9 (len : Int) :
    (∀ i : Int, 0 ≤ i → i < len →
      proxyGet (.numeric (.intVal i)) len = .invokeGet i) ∧
    (∀ i : Int, 0 ≤ i → len ≤ i →
      proxyGet (.numeric (.intVal i)) len = .absent) ∧
    (∀ i : Int, i < 0 → proxyGet (.numeric (.intVal i)) len = .absent) ∧
    (proxyGet (.numeric .negZero) len = .absent) ∧
    (∀ s : Bool, proxyGet (.numeric (.fracVal s)) len = .absent) ∧
    (proxyGet .nonNumeric len = .reflectGet) := by
  refine ⟨?_, ?_, ?_, ?_, ?_, ?_⟩
  · intro i h0 hl
    have hbad : IsBadIndex (NumKeyClass.intVal i) = false := by
      simp [IsBadIndex, IsInteger, numKeyNeg, isNegZero]; omega
    have hge : numKeyGE (NumKeyClass.intVal i) len = false := by
      simp [numKeyGE]; omega
    simp [proxyGet, hbad, hge, numKeyToInt]
  · intro i h0 hl
    have hbad : IsBadIndex (NumKeyClass.intVal i) = false := by
      simp [IsBadIndex, IsInteger, numKeyNeg, isNegZero]; omega
    have hge : numKeyGE (NumKeyClass.intVal i) len = true := by
      simp [numKeyGE]; omega
    simp [proxyGet, hbad, hge]
  · intro i hl
    have hbad : IsBadIndex (NumKeyClass.intVal i) = true := by
      simp [IsBadIndex, IsInteger, numKeyNeg, isNegZero]; omega
    simp [proxyGet, hbad]
  · simp [proxyGet, IsBadIndex, IsInteger, numKeyNeg, isNegZero]
  · intro s
    simp [proxyGet, IsBadIndex, IsInteger]
  · rfl

/-- C9, witness: index 1 of a length-3 value routes through the
indexed-get entry. -/
theorem claim9_witness : proxyGet (.numeric (.intVal 1)) 3 = .invokeGet 1 :=
  (claim9 3).1 1 (by decide) (by decide)

/-- C10: `_binary` at `!=` is exactly the boolean negation (JavaScript
`!`, i.e. `ToBoolean` then negate) of `_binary` at `==` with the same
operands and scope, errors included — inequality is never
independently overloadable. -/
theorem claim10 (env : Env) (a b : JSVal) (s : Scope) :
    _binary env "!=" a b s =
      (_binary env "==" a b s).map (fun v => JSVal.boolV (!(toBoolean v))) := by
  have he : _binary env "==" a b s = _abstractEqualityComparison env a b s := rfl
  have hne : _binary env "!=" a b s =
      (match _abstractEqualityComparison env a b s with
       | .ok v => Except.ok (JSVal.boolV (!(toBoolean v)))
       | .error e => Except.error e) := rfl
  rw [he, hne]
  cases h : _abstractEqualityComparison env a b s <;> simp

@[simp] theorem except_bind_pure {α β : Type} (x : Except α β) :
    (x >>= fun r => Except.ok r) = x := by cases x <;> rfl

theorem withFrom_ok_all_some (adds : List (Option OperatorSetDef)) :
    ∀ s : Scope, (∀ k ∈ adds, k.isSome) →
    _withOperatorsFrom s adds =
      .ok (s ∪ ((adds.filterMap id).map OperatorSetDef.OperatorCounter).toFinset) := by
  induction adds with
  | nil =>
    intro s _
    simp [_withOperatorsFrom, List.foldlM, pure, Except.pure]
  | cons hd tl ih =>
    intro s hall
    cases hd with
    | none => simpa using hall none (by simp)
    | some d =>
      have htl : ∀ k ∈ tl, k.isSome := fun k hk => hall k (by simp [hk])
      simp only [_withOperatorsFrom, List.foldlM] at ih ⊢
      rw [except_bind_ok]
      rw [ih (insert d.OperatorCounter s) htl]
      simp [Finset.insert_union, Finset.union_insert]

theorem withFrom_none_error (adds : List (Option OperatorSetDef)) :
    ∀ s : Scope, none ∈ adds →
    _withOperatorsFrom s adds =
      .error (.typeError
        "with operator from must be invoked with a class with overloaded operators") := by
  induction adds with
  | nil => intro s h; cases h
  | cons hd tl ih =>
    intro s h
    cases hd with
    | none => simp [_withOperatorsFrom, List.foldlM]
    | some d =>
      have : none ∈ tl := by
        rcases List.mem_cons.mp h with h1 | h2
        · cases h1
        · exact h2
      simp only [_withOperatorsFrom, List.foldlM] at ih ⊢
      rw [except_bind_ok]
      exact ih (insert d.OperatorCounter s) this

/-- C8: creating a child scope from a parent and a list of granted
classes (each represented by its optional `[OperatorDefinition]`)
yields exactly the parent set united with the granted ordinals when
every granted class carries an operator-set reference, and fails with
the `NotOverloadable` `TypeError` when some granted class carries
none. -/
theorem claim8 (parent : Scope) (additions : List (Option OperatorSetDef)) :
    ((∀ k ∈ additions, k.isSome) →
      _withOperatorsFrom (_declareOperators parent) additions =
        .ok (parent ∪
          ((additions.filterMap id).map OperatorSetDef.OperatorCounter).toFinset)) ∧
    (none ∈ additions →
      _withOperatorsFrom (_declareOperators parent) additions =
        .error (.typeError
          "with operator from must be invoked with a class with overloaded operators")) :=
  ⟨fun h => withFrom_ok_all_some additions parent h,
   fun h => withFrom_none_error additions parent h⟩

/-- C8, witness: granting one class of ordinal 5 over the default
scope yields exactly the union. -/
theorem claim8_witness :
    _withOperatorsFrom (_declareOperators defaultOperators)
      [some ⟨5, [], [], [], OpenOps.set []⟩] =
    .ok (defaultOperators ∪
      (([some (⟨5, [], [], [], OpenOps.set []⟩ : OperatorSetDef)].filterMap id).map
        OperatorSetDef.OperatorCounter).toFinset) :=
  (claim8 defaultOperators [some ⟨5, [], [], [], OpenOps.set []⟩]).1 (by decide)

theorem arc_lt (env : Env) (a b : JSVal) (s : Scope) :
    _abstractRelationalComparison env "<" a b s =
      (ToOperand a >>= fun x => ToOperand b >>= fun y =>
        if !(hasOverloadedOperators x) && !(hasOverloadedOperators y) then jsLessThan x y
        else dispatchBinaryOperator env "<" x y s) := by
  unfold _abstractRelationalComparison
  cases ha : ToOperand a with
  | error e => simp
  | ok x =>
    cases hb : ToOperand b with
    | error e => simp
    | ok y => simp

theorem arc_gt (env : Env) (a b : JSVal) (s : Scope) :
    _abstractRelationalComparison env ">" a b s =
      (ToOperand a >>= fun x => ToOperand b >>= fun y =>
        if !(hasOverloadedOperators y) && !(hasOverloadedOperators x) then jsLessThan y x
        else dispatchBinaryOperator env "<" y x s) := by
  unfold _abstractRelationalComparison
  cases ha : ToOperand a with
  | error e => simp
  | ok x =>
    cases hb : ToOperand b with
    | error e => simp
    | ok y => simp

theorem arc_le (env : Env) (a b : JSVal) (s : Scope) :
    _abstractRelationalComparison env "<=" a b s =
      (ToOperand a >>= fun x => ToOperand b >>= fun y =>
        (if !(hasOverloadedOperators y) && !(hasOverloadedOperators x) then jsLessThan y x
         else dispatchBinaryOperator env "<" y x s).map
          (fun v => JSVal.boolV (!(toBoolean v)))) := by
  unfold _abstractRelationalComparison
  cases ha : ToOperand a with
  | error e => simp
  | ok x =>
    cases hb : ToOperand b with
    | error e => simp
    | ok y =>
      simp only [except_bind_ok]
      by_cases hc : (!(hasOverloadedOperators y) && !(hasOverloadedOperators x)) = true
      · cases h : jsLessThan y x <;> simp [hc, h]
      · cases h : dispatchBinaryOperator env "<" y x s <;> simp [hc, h]

theorem arc_ge (env : Env) (a b : JSVal) (s : Scope) :
    _abstractRelationalComparison env ">=" a b s =
      (ToOperand a >>= fun x => ToOperand b >>= fun y =>
        (if !(hasOverloadedOperators x) && !(hasOverloadedOperators y) then jsLessThan x y
         else dispatchBinaryOperator env "<" x y s).map
          (fun v => JSVal.boolV (!(toBoolean v)))) := by
  unfold _abstractRelationalComparison
  cases ha : ToOperand a with
  | error e => simp
  | ok x =>
    cases hb : ToOperand b with
    | error e => simp
    | ok y =>
      simp only [except_bind_ok]
      by_cases hc : (!(hasOverloadedOperators x) && !(hasOverloadedOperators y)) = true
      · cases h : jsLessThan x y <;> simp [hc, h]
      · cases h : dispatchBinaryOperator env "<" x y s <;> simp [hc, h]

/-- C7: the four relational operators reduce to the single less-than
dispatch: `>` on `(a, b)` is `<` on `(b, a)`; `<=` on `(a, b)` is the
boolean negation of `<` on `(b, a)`; `>=` on `(a, b)` is the boolean
negation of `<` on `(a, b)`; and when both operands are non-Overloaded
the built-in comparison is used, which is lexicographic for two
strings. -/
theorem claim7 (env : Env) (a b : JSVal) (s : Scope) :
    (_abstractRelationalComparison env ">" a b s =
      _abstractRelationalComparison env "<" b a s) ∧
    (_abstractRelationalComparison env "<=" a b s =
      (_abstractRelationalComparison env "<" b a s).map
        (fun v => JSVal.boolV (!(toBoolean v)))) ∧
    (_abstractRelationalComparison env ">=" a b s =
      (_abstractRelationalComparison env "<" a b s).map
        (fun v => JSVal.boolV (!(toBoolean v)))) ∧
    (hasOverloadedOperators a = false → hasOverloadedOperators b = false →
      _abstractRelationalComparison env "<" a b s =
        (ToOperand a >>= fun x => ToOperand b >>= fun y => jsLessThan x y)) ∧
    (∀ s1 s2 : String,
      _abstractRelationalComparison env "<" (.str s1) (.str s2) s =
        .ok (.boolV (decide (s1 < s2)))) := by
  refine ⟨?_, ?_, ?_, ?_, ?_⟩
  · rw [arc_gt, arc_lt]
    cases ha : ToOperand a with
    | error ea =>
      cases hb : ToOperand b with
      | error eb =>
        rw [ToOperand_error ha, ToOperand_error hb]
        simp
      | ok y => simp
    | ok x =>
      cases hb : ToOperand b with
      | error eb => simp
      | ok y => simp
  · rw [arc_le, arc_lt]
    cases ha : ToOperand a with
    | error ea =>
      cases hb : ToOperand b with
      | error eb =>
        rw [ToOperand_error ha, ToOperand_error hb]
        simp
      | ok y => simp
    | ok x =>
      cases hb : ToOperand b with
      | error eb => simp
      | ok y => simp only [except_bind_ok]
  · rw [arc_ge, arc_lt]
    cases ha : ToOperand a with
    | error ea => simp
    | ok x =>
      cases hb : ToOperand b with
      | error eb => simp
      | ok y => simp only [except_bind_ok]
  · intro hoa hob
    rw [arc_lt]
    cases ha : ToOperand a with
    | error ea => simp
    | ok x =>
      cases hb : ToOperand b with
      | error eb => simp
      | ok y =>
        have hx := ToOperand_ok_not_overloaded hoa ha
        have hy := ToOperand_ok_not_overloaded hob hb
        simp [hx, hy]
  · intro s1 s2
    rw [arc_lt]
    simp [ToOperand, hasOverloadedOperators, ToPrimitive, jsLessThan, primLessThan,
      primLessThanOpt]

/-- C7, witness: instantiation at plain numbers 1 and 2 in the default
scope. -/
theorem claim7_witness :
    _abstractRelationalComparison trivialEnv "<" (.num 1) (.num 2) defaultOperators =
      (ToOperand (.num 1) >>= fun x => ToOperand (.num 2) >>= fun y => jsLessThan x y) :=
  (claim7 trivialEnv (.num 1) (.num 2) defaultOperators).2.2.2.1 rfl rfl

/-- C1: with both ordinals permitted and the operand operator sets
distinct, binary dispatch resolves through the higher-ordinal set's
table — `LeftOperatorDefinitions` when the higher set is on the left,
`RightOperatorDefinitions` when it is on the right — indexed by the
lower ordinal; a missing table or entry fails with the
`No overload found` error, and a found entry is invoked with `(a, b)`
in the original left-right order. -/
theorem claim1 (env : Env) (op : String) (sa sb : OperatorSetDef)
    (va ta vb tb : Option CoerceRet) (scope : Scope)
    (ha : sa.OperatorCounter ∈ scope) (hb : sb.OperatorCounter ∈ scope)
    (hne : sa.OperatorCounter ≠ sb.OperatorCounter) :
    dispatchBinaryOperator env op (.obj (some sa) va ta) (.obj (some sb) vb tb) scope =
      (match specCrossLookup op sa sb with
       | none => .error (noOverload op)
       | some fn => applyBin env fn (.obj (some sa) va ta) (.obj (some sb) vb tb)) := by
  have hsetne : (some sb : Option OperatorSetDef) ≠ some sa := by
    intro h
    exact hne (by cases h; rfl)
  have hbeq : ((some sb : Option OperatorSetDef) == some sa) = false :=
    beq_eq_false_iff_ne.mpr hsetne
  unfold dispatchBinaryOperator
  simp only [checkPermitted, getOperatorSet, ha, if_pos, except_bind_ok, hbeq,
    Bool.false_eq_true, if_false, hb]
  by_cases hlt : sa.OperatorCounter < sb.OperatorCounter
  · simp only [specCrossLookup, hlt, if_pos]
    cases hd : sb.RightOperatorDefinitions.getD sa.OperatorCounter none with
    | none => simp [hd]
    | some defs =>
      cases hf : defs.lookup op with
      | none => simp [hd, hf]
      | some fn => simp [hd, hf]
  · simp only [specCrossLookup, hlt, if_neg, if_false]
    cases hd : sa.LeftOperatorDefinitions.getD sb.OperatorCounter none with
    | none => simp [hd]
    | some defs =>
      cases hf : defs.lookup op with
      | none => simp [hd, hf]
      | some fn => simp [hd, hf]

/-- C1, witness: a right-positioned higher set (ordinal 4) resolving
`*` against the lower ordinal 3 through its
`RightOperatorDefinitions`. -/
theorem claim1_witness :
    dispatchBinaryOperator trivialEnv "*"
      (.obj (some ⟨3, [], [], [], OpenOps.set []⟩) none none)
      (.obj (some ⟨4, [], [], [none, none, none, some [("*", FnId.user 7)]],
        OpenOps.set []⟩) none none)
      ({3, 4} : Finset Nat) =
      (match specCrossLookup "*" ⟨3, [], [], [], OpenOps.set []⟩
          ⟨4, [], [], [none, none, none, some [("*", FnId.user 7)]], OpenOps.set []⟩ with
       | none => .error (noOverload "*")
       | some fn => applyBin trivialEnv fn
          (.obj (some ⟨3, [], [], [], OpenOps.set []⟩) none none)
          (.obj (some ⟨4, [], [], [none, none, none, some [("*", FnId.user 7)]],
            OpenOps.set []⟩) none none)) :=
  claim1 trivialEnv "*" _ _ none none none none _ (by decide) (by decide) (by decide)

/-- C2: evaluating the code at the spec's scenario — equality between
an Overloaded value (whose set, ordinal 3, defines no `==` anywhere)
and the plain number 1, with ordinal 3 permitted — throws the
`No overload found for ==` TypeError instead of returning `false` as
the specification (and the repository's own PROTOSPEC.md, which maps a
missing `==` method to `false`) requires. -/
theorem claim2_eval :
    _binary trivialEnv "=="
      (.obj (some ⟨3, [], [], [], OpenOps.set []⟩) none none) (.num 1)
      ({0, 1, 2, 3} : Finset Nat) = .error (noOverload "==") := by
  have h : _binary trivialEnv "=="
      (.obj (some ⟨3, [], [], [], OpenOps.set []⟩) none none) (.num 1)
      ({0, 1, 2, 3} : Finset Nat) =
    _abstractEqualityComparison trivialEnv
      (.obj (some ⟨3, [], [], [], OpenOps.set []⟩) none none) (.num 1)
      ({0, 1, 2, 3} : Finset Nat) := rfl
  rw [h]
  simp [_abstractEqualityComparison, equalityTail, ToOperand, hasOverloadedOperators,
    ToPrimitive, typeof, isObject, dispatchBinaryOperator, checkPermitted,
    getOperatorSet, NumberOperatorSet, noOverload]

/-- C5: evaluating the registration gate at the built-in types — the
same cross-type table pairing `+` succeeds against `Number` (whose
`OpenOperators` is a `Set` containing `+`) but fails against `String`
with the `.has is not a function` TypeError, even though `+` is in
`String`'s declared open-operator list `['+', '==', '<']`: the source
stores that list as a plain array, so the membership test itself
crashes instead of consulting it. -/
theorem claim5_eval :
    ((Operators 3 ⟨[], none,
        [⟨some (some StringOperatorSet), none, [("+", TableVal.fn (FnId.user 0))]⟩]⟩).1 =
      .error (.typeError "OpenOperators.has is not a function")) ∧
    ((Operators 3 ⟨[], none,
        [⟨some (some NumberOperatorSet), none, [("+", TableVal.fn (FnId.user 0))]⟩]⟩).1.isOk
      = true) := by
  exact ⟨by decide, by decide⟩


theorem getOperatorSet_numOfOpt (o : Option Int) :
    getOperatorSet (numOfOpt o) = some NumberOperatorSet := by
  cases o <;> rfl

theorem toNumericValue_numOfOpt (o : Option Int) :
    toNumericValue (numOfOpt o) = .ok (.numO o) := by
  cases o <;> rfl

theorem toNumericOperand_builtin (a : BuiltinVal) :
    ToNumericOperand a.toJS = .ok (numCoerce a) := by
  cases a <;> rfl

theorem dispatch_same_number (env : Env) (op : String) (x y : JSVal) (s : Scope)
    (hop : op ∈ binaryOperators) (h0 : 0 ∈ s)
    (hx : getOperatorSet x = some NumberOperatorSet)
    (hy : getOperatorSet y = some NumberOperatorSet) :
    dispatchBinaryOperator env op x y s = primBinary op x y := by
  have hl : identityOperators.lookup op = some (FnId.prim op) :=
    identityOperators_lookup op (List.mem_append.mpr (Or.inl hop))
  unfold dispatchBinaryOperator
  simp [checkPermitted, hx, hy, NumberOperatorSet, h0, hl, applyBin]

theorem dispatch_same_bigint (env : Env) (op : String) (x y : JSVal) (s : Scope)
    (hop : op ∈ binaryOperators) (h1 : 1 ∈ s)
    (hx : getOperatorSet x = some BigIntOperatorSet)
    (hy : getOperatorSet y = some BigIntOperatorSet) :
    dispatchBinaryOperator env op x y s = primBinary op x y := by
  have hl : identityOperators.lookup op = some (FnId.prim op) :=
    identityOperators_lookup op (List.mem_append.mpr (Or.inl hop))
  unfold dispatchBinaryOperator
  simp [checkPermitted, hx, hy, BigIntOperatorSet, h1, hl, applyBin]

theorem dispatch_number_bigint (env : Env) (op : String) (x y : JSVal) (s : Scope)
    (hop : op ∈ binaryOperators) (h0 : 0 ∈ s) (h1 : 1 ∈ s)
    (hx : getOperatorSet x = some NumberOperatorSet)
    (hy : getOperatorSet y = some BigIntOperatorSet) :
    dispatchBinaryOperator env op x y s = primBinary op x y := by
  have hl : identityOperators.lookup op = some (FnId.prim op) :=
    identityOperators_lookup op (List.mem_append.mpr (Or.inl hop))
  have hne : ((some BigIntOperatorSet : Option OperatorSetDef) == some NumberOperatorSet)
      = false := by decide
  unfold dispatchBinaryOperator
  simp [checkPermitted, hx, hy, NumberOperatorSet, BigIntOperatorSet, h0, h1, hne,
    hl, applyBin]

theorem dispatch_bigint_number (env : Env) (op : String) (x y : JSVal) (s : Scope)
    (hop : op ∈ binaryOperators) (h0 : 0 ∈ s) (h1 : 1 ∈ s)
    (hx : getOperatorSet x = some BigIntOperatorSet)
    (hy : getOperatorSet y = some NumberOperatorSet) :
    dispatchBinaryOperator env op x y s = primBinary op x y := by
  have hl : identityOperators.lookup op = some (FnId.prim op) :=
    identityOperators_lookup op (List.mem_append.mpr (Or.inl hop))
  have hne : ((some NumberOperatorSet : Option OperatorSetDef) == some BigIntOperatorSet)
      = false := by decide
  unfold dispatchBinaryOperator
  simp [checkPermitted, hx, hy, NumberOperatorSet, BigIntOperatorSet, h0, h1, hne,
    hl, applyBin]

theorem nbo_builtin (env : Env) (op : String) (hop : op ∈ binaryOperators)
    (a b : BuiltinVal) (s : Scope) (hs : ValidScope s) :
    _numericBinaryOperate env op a.toJS b.toJS s =
      primBinary op (numCoerce a) (numCoerce b) := by
  obtain ⟨h0, h1, _⟩ := hs
  cases a with
  | num n =>
    cases b with
    | num m => rfl
    | nanB => rfl
    | bigintV m => rfl
    | str sb =>
      simp only [_numericBinaryOperate, BuiltinVal.toJS, numCoerce, isNumeric, typeof]
      simp [ToNumericOperand, isNumeric, typeof, hasOverloadedOperators,
        ToPrimitive, ToNumber]
      exact dispatch_same_number env op _ _ s hop h0 rfl (getOperatorSet_numOfOpt _)
  | nanB =>
    cases b with
    | num m => rfl
    | nanB => rfl
    | bigintV m => rfl
    | str sb =>
      simp only [_numericBinaryOperate, BuiltinVal.toJS, numCoerce, isNumeric, typeof]
      simp [ToNumericOperand, isNumeric, typeof, hasOverloadedOperators,
        ToPrimitive, ToNumber]
      exact dispatch_same_number env op _ _ s hop h0 rfl (getOperatorSet_numOfOpt _)
  | bigintV n =>
    cases b with
    | num m => rfl
    | nanB => rfl
    | bigintV m => rfl
    | str sb =>
      simp only [_numericBinaryOperate, BuiltinVal.toJS, numCoerce, isNumeric, typeof]
      simp [ToNumericOperand, isNumeric, typeof, hasOverloadedOperators,
        ToPrimitive, ToNumber]
      exact dispatch_bigint_number env op _ _ s hop h0 h1 rfl (getOperatorSet_numOfOpt _)
  | str sa =>
    cases b with
    | num m =>
      simp only [_numericBinaryOperate, BuiltinVal.toJS, numCoerce, isNumeric, typeof]
      simp [ToNumericOperand, isNumeric, typeof, hasOverloadedOperators,
        ToPrimitive, ToNumber]
      exact dispatch_same_number env op _ _ s hop h0 (getOperatorSet_numOfOpt _) rfl
    | nanB =>
      simp only [_numericBinaryOperate, BuiltinVal.toJS, numCoerce, isNumeric, typeof]
      simp [ToNumericOperand, isNumeric, typeof, hasOverloadedOperators,
        ToPrimitive, ToNumber]
      exact dispatch_same_number env op _ _ s hop h0 (getOperatorSet_numOfOpt _) rfl
    | bigintV m =>
      simp only [_numericBinaryOperate, BuiltinVal.toJS, numCoerce, isNumeric, typeof]
      simp [ToNumericOperand, isNumeric, typeof, hasOverloadedOperators,
        ToPrimitive, ToNumber]
      exact dispatch_number_bigint env op _ _ s hop h0 h1 (getOperatorSet_numOfOpt _) rfl
    | str sb =>
      simp only [_numericBinaryOperate, BuiltinVal.toJS, numCoerce, isNumeric, typeof]
      simp [ToNumericOperand, isNumeric, typeof, hasOverloadedOperators,
        ToPrimitive, ToNumber]
      exact dispatch_same_number env op _ _ s hop h0 (getOperatorSet_numOfOpt _)
        (getOperatorSet_numOfOpt _)

theorem toNumericValue_num (n : Int) :
    toNumericValue (JSVal.num n) = .ok (.numO (some n)) := rfl

theorem toNumericValue_nan : toNumericValue JSVal.nanV = .ok (.numO none) := rfl

theorem toNumericValue_big (n : Int) :
    toNumericValue (JSVal.bigintV n) = .ok (.bigO n) := rfl

theorem toNumericValue_str (s : String) :
    toNumericValue (JSVal.str s) = .ok (.numO (strToNumber s)) := rfl

theorem primBinary_coerce_arith (op : String) (a b : BuiltinVal) :
    jsArith op (numCoerce a) (numCoerce b) = jsArith op a.toJS b.toJS := by
  cases a <;> cases b <;>
    simp [jsArith, numCoerce, BuiltinVal.toJS, toNumericValue_numOfOpt,
      toNumericValue_num, toNumericValue_nan, toNumericValue_big, toNumericValue_str]

theorem aec_builtin (env : Env) (a b : BuiltinVal) (s : Scope) :
    _abstractEqualityComparison env a.toJS b.toJS s =
      .ok (.boolV (jsLooseEq a.toJS b.toJS)) := by
  cases a <;> cases b <;>
    simp [_abstractEqualityComparison, BuiltinVal.toJS, typeof, isObject, jsStrictEq,
      jsLooseEq, unBool, equalityTail, ToOperand, hasOverloadedOperators, ToPrimitive]

theorem add_builtin (env : Env) (a b : BuiltinVal) (s : Scope) (hs : ValidScope s) :
    _additionOperator env a.toJS b.toJS s = jsAdd a.toJS b.toJS := by
  obtain ⟨h0, h1, _⟩ := hs
  have hp : ("+" : String) ∈ binaryOperators := by decide
  have ta : ToOperand a.toJS = .ok a.toJS := by cases a <;> rfl
  have tb : ToOperand b.toJS = .ok b.toJS := by cases b <;> rfl
  unfold _additionOperator
  rw [ta, except_bind_ok, tb, except_bind_ok]
  cases a with
  | str sa => simp [BuiltinVal.toJS, typeof]
  | num n =>
    cases b with
    | str sb => simp [BuiltinVal.toJS, typeof]
    | num m =>
      simp only [BuiltinVal.toJS, typeof]
      rw [if_neg (by decide)]
      exact dispatch_same_number env "+" _ _ s hp h0 rfl rfl
    | nanB =>
      simp only [BuiltinVal.toJS, typeof]
      rw [if_neg (by decide)]
      exact dispatch_same_number env "+" _ _ s hp h0 rfl rfl
    | bigintV m =>
      simp only [BuiltinVal.toJS, typeof]
      rw [if_neg (by decide)]
      exact dispatch_number_bigint env "+" _ _ s hp h0 h1 rfl rfl
  | nanB =>
    cases b with
    | str sb => simp [BuiltinVal.toJS, typeof]
    | num m =>
      simp only [BuiltinVal.toJS, typeof]
      rw [if_neg (by decide)]
      exact dispatch_same_number env "+" _ _ s hp h0 rfl rfl
    | nanB =>
      simp only [BuiltinVal.toJS, typeof]
      rw [if_neg (by decide)]
      exact dispatch_same_number env "+" _ _ s hp h0 rfl rfl
    | bigintV m =>
      simp only [BuiltinVal.toJS, typeof]
      rw [if_neg (by decide)]
      exact dispatch_number_bigint env "+" _ _ s hp h0 h1 rfl rfl
  | bigintV n =>
    cases b with
    | str sb => simp [BuiltinVal.toJS, typeof]
    | num m =>
      simp only [BuiltinVal.toJS, typeof]
      rw [if_neg (by decide)]
      exact dispatch_bigint_number env "+" _ _ s hp h0 h1 rfl rfl
    | nanB =>
      simp only [BuiltinVal.toJS, typeof]
      rw [if_neg (by decide)]
      exact dispatch_bigint_number env "+" _ _ s hp h0 h1 rfl rfl
    | bigintV m =>
      simp only [BuiltinVal.toJS, typeof]
      rw [if_neg (by decide)]
      exact dispatch_same_bigint env "+" _ _ s hp h1 rfl rfl

theorem arc_lt_builtin (env : Env) (a b : BuiltinVal) (s : Scope) :
    _abstractRelationalComparison env "<" a.toJS b.toJS s =
      jsLessThan a.toJS b.toJS := by
  rw [arc_lt]
  have ta : ToOperand a.toJS = .ok a.toJS := by cases a <;> rfl
  have tb : ToOperand b.toJS = .ok b.toJS := by cases b <;> rfl
  have hova : hasOverloadedOperators a.toJS = false := by cases a <;> rfl
  have hovb : hasOverloadedOperators b.toJS = false := by cases b <;> rfl
  rw [ta, except_bind_ok, tb, except_bind_ok]
  simp [hova, hovb]

theorem arc_gt_builtin (env : Env) (a b : BuiltinVal) (s : Scope) :
    _abstractRelationalComparison env ">" a.toJS b.toJS s =
      jsLessThan b.toJS a.toJS := by
  rw [arc_gt]
  have ta : ToOperand a.toJS = .ok a.toJS := by cases a <;> rfl
  have tb : ToOperand b.toJS = .ok b.toJS := by cases b <;> rfl
  have hova : hasOverloadedOperators a.toJS = false := by cases a <;> rfl
  have hovb : hasOverloadedOperators b.toJS = false := by cases b <;> rfl
  rw [ta, except_bind_ok, tb, except_bind_ok]
  simp [hova, hovb]

theorem arc_le_builtin (env : Env) (a b : BuiltinVal) (s : Scope) :
    _abstractRelationalComparison env "<=" a.toJS b.toJS s =
      (jsLessThan b.toJS a.toJS).map (fun v => JSVal.boolV (!(toBoolean v))) := by
  rw [arc_le]
  have ta : ToOperand a.toJS = .ok a.toJS := by cases a <;> rfl
  have tb : ToOperand b.toJS = .ok b.toJS := by cases b <;> rfl
  have hova : hasOverloadedOperators a.toJS = false := by cases a <;> rfl
  have hovb : hasOverloadedOperators b.toJS = false := by cases b <;> rfl
  rw [ta, except_bind_ok, tb, except_bind_ok]
  simp [hova, hovb]

theorem arc_ge_builtin (env : Env) (a b : BuiltinVal) (s : Scope) :
    _abstractRelationalComparison env ">=" a.toJS b.toJS s =
      (jsLessThan a.toJS b.toJS).map (fun v => JSVal.boolV (!(toBoolean v))) := by
  rw [arc_ge]
  have ta : ToOperand a.toJS = .ok a.toJS := by cases a <;> rfl
  have tb : ToOperand b.toJS = .ok b.toJS := by cases b <;> rfl
  have hova : hasOverloadedOperators a.toJS = false := by cases a <;> rfl
  have hovb : hasOverloadedOperators b.toJS = false := by cases b <;> rfl
  rw [ta, except_bind_ok, tb, except_bind_ok]
  simp [hova, hovb]

theorem jsLessThan_builtin (a b : BuiltinVal) :
    jsLessThan a.toJS b.toJS = .ok (.boolV (primLessThan a.toJS b.toJS)) := by
  cases a <;> cases b <;> rfl

theorem arcNative_builtin (a b : BuiltinVal) :
    arcNative a.toJS b.toJS = .ok (primLessThanOpt a.toJS b.toJS) := by
  cases a <;> cases b <;> rfl

theorem binary_fast_nonrel (env : Env) (op : String)
    (hop : op ∈ surfaceBinaryOperators) (hne1 : op ≠ "<=") (hne2 : op ≠ ">=")
    (a b : BuiltinVal) (s : Scope) (hs : ValidScope s) :
    _binary env op a.toJS b.toJS s = nativeBinary op a.toJS b.toJS := by
  fin_cases hop
  · exact (nbo_builtin env "-" (by decide) a b s hs).trans
      (primBinary_coerce_arith "-" a b)
  · exact (nbo_builtin env "*" (by decide) a b s hs).trans
      (primBinary_coerce_arith "*" a b)
  · exact (nbo_builtin env "/" (by decide) a b s hs).trans
      (primBinary_coerce_arith "/" a b)
  · exact (nbo_builtin env "%" (by decide) a b s hs).trans
      (primBinary_coerce_arith "%" a b)
  · exact (nbo_builtin env "**" (by decide) a b s hs).trans
      (primBinary_coerce_arith "**" a b)
  · exact (nbo_builtin env "&" (by decide) a b s hs).trans
      (primBinary_coerce_arith "&" a b)
  · exact (nbo_builtin env "^" (by decide) a b s hs).trans
      (primBinary_coerce_arith "^" a b)
  · exact (nbo_builtin env "|" (by decide) a b s hs).trans
      (primBinary_coerce_arith "|" a b)
  · exact (nbo_builtin env "<<" (by decide) a b s hs).trans
      (primBinary_coerce_arith "<<" a b)
  · exact (nbo_builtin env ">>" (by decide) a b s hs).trans
      (primBinary_coerce_arith ">>" a b)
  · exact (nbo_builtin env ">>>" (by decide) a b s hs).trans
      (primBinary_coerce_arith ">>>" a b)
  · exact aec_builtin env a b s
  · show (match _abstractEqualityComparison env a.toJS b.toJS s with
      | .ok v => Except.ok (JSVal.boolV (!(toBoolean v)))
      | .error e => Except.error e) = _
    rw [aec_builtin env a b s]
    rfl
  · exact add_builtin env a b s hs
  · rw [show _binary env "<" a.toJS b.toJS s =
        _abstractRelationalComparison env "<" a.toJS b.toJS s from rfl,
      arc_lt_builtin, jsLessThan_builtin,
      show nativeBinary "<" a.toJS b.toJS =
        (arcNative a.toJS b.toJS).map (fun r => JSVal.boolV (r.getD false)) from rfl,
      arcNative_builtin]
    rfl
  · rw [show _binary env ">" a.toJS b.toJS s =
        _abstractRelationalComparison env ">" a.toJS b.toJS s from rfl,
      arc_gt_builtin, jsLessThan_builtin,
      show nativeBinary ">" a.toJS b.toJS =
        (arcNative b.toJS a.toJS).map (fun r => JSVal.boolV (r.getD false)) from rfl,
      arcNative_builtin]
    rfl
  · exact absurd rfl hne1
  · exact absurd rfl hne2

theorem le_builtin (env : Env) (a b : BuiltinVal) (s : Scope) :
    _binary env "<=" a.toJS b.toJS s =
      .ok (.boolV (!(primLessThan b.toJS a.toJS))) := by
  rw [show _binary env "<=" a.toJS b.toJS s =
      _abstractRelationalComparison env "<=" a.toJS b.toJS s from rfl,
    arc_le_builtin, jsLessThan_builtin]
  rfl

theorem ge_builtin (env : Env) (a b : BuiltinVal) (s : Scope) :
    _binary env ">=" a.toJS b.toJS s =
      .ok (.boolV (!(primLessThan a.toJS b.toJS))) := by
  rw [show _binary env ">=" a.toJS b.toJS s =
      _abstractRelationalComparison env ">=" a.toJS b.toJS s from rfl,
    arc_ge_builtin, jsLessThan_builtin]
  rfl

theorem native_le_builtin (a b : BuiltinVal) :
    nativeBinary "<=" a.toJS b.toJS =
      .ok (.boolV (match primLessThanOpt b.toJS a.toJS with
        | some v => !v
        | none => false)) := by
  rw [show nativeBinary "<=" a.toJS b.toJS =
      (arcNative b.toJS a.toJS).map
        (fun r => JSVal.boolV (match r with | some v => !v | none => false)) from rfl,
    arcNative_builtin]
  rfl

theorem native_ge_builtin (a b : BuiltinVal) :
    nativeBinary ">=" a.toJS b.toJS =
      .ok (.boolV (match primLessThanOpt a.toJS b.toJS with
        | some v => !v
        | none => false)) := by
  rw [show nativeBinary ">=" a.toJS b.toJS =
      (arcNative a.toJS b.toJS).map
        (fun r => JSVal.boolV (match r with | some v => !v | none => false)) from rfl,
    arcNative_builtin]
  rfl

theorem unary_builtin (env : Env) (op : String) (hop : op ∈ unaryOperators)
    (a : BuiltinVal) (s : Scope) (hs : ValidScope s) :
    _unary env op a.toJS s = primUnary op a.toJS := by
  obtain ⟨h0, _, _⟩ := hs
  have hl : identityOperators.lookup op = some (FnId.prim op) :=
    identityOperators_lookup op (List.mem_append.mpr (Or.inr hop))
  cases a with
  | num n => rfl
  | nanB => rfl
  | bigintV n => rfl
  | str sa =>
    cases hoo : strToNumber sa with
    | some n =>
      have hco : ToNumericOperand (JSVal.str sa) = .ok (.num n) := by
        simp [ToNumericOperand, isNumeric, typeof, hasOverloadedOperators,
          ToPrimitive, ToNumber, numOfOpt, hoo]
      simp only [_unary, BuiltinVal.toJS, isNumeric, typeof]
      simp [hco, checkPermitted, getOperatorSet, NumberOperatorSet, h0, hl, applyUn]
      by_cases hp : (op == "pos") = true
      · simp [primUnary, hp, ToNumber, numOfOpt, hoo]
      · simp [primUnary, hp, toNumericValue_num, toNumericValue_str, hoo]
    | none =>
      have hco : ToNumericOperand (JSVal.str sa) = .ok .nanV := by
        simp [ToNumericOperand, isNumeric, typeof, hasOverloadedOperators,
          ToPrimitive, ToNumber, numOfOpt, hoo]
      simp only [_unary, BuiltinVal.toJS, isNumeric, typeof]
      simp [hco, checkPermitted, getOperatorSet, NumberOperatorSet, h0, hl, applyUn]
      by_cases hp : (op == "pos") = true
      · simp [primUnary, hp, ToNumber, numOfOpt, hoo]
      · simp [primUnary, hp, toNumericValue_nan, toNumericValue_str, hoo]

/-- C3, counterexample: the spec's fast-path claim fails on the
operands `"abc"` and `5` with the operator `<=`: the shim computes the
bare negation of `5 < "abc"`, whose comparison is undefined (`"abc"`
coerces to `NaN`), yielding `true`, while the native abstract
relational comparison maps an undefined result to `false`. -/
theorem claim3_counterexample :
    (_binary trivialEnv "<=" (JSVal.str "abc") (JSVal.num 5) defaultOperators =
      .ok (.boolV true)) ∧
    (nativeBinary "<=" (JSVal.str "abc") (JSVal.num 5) = .ok (.boolV false)) ∧
    (_binary trivialEnv "<=" (JSVal.str "abc") (JSVal.num 5) defaultOperators ≠
      nativeBinary "<=" (JSVal.str "abc") (JSVal.num 5)) := by
  refine ⟨by decide, by decide, by decide⟩

/-- C3, amended: for built-in numeric and textual operands (no
Overloaded operand) and any reachable permission scope, every surface
binary operator other than `<=`/`>=`, and every unary operator,
returns exactly the result of the native primitive semantics; `<=` and
`>=` also do whenever the underlying abstract relational comparison is
defined, but when it is undefined (`NaN` involved) the shim's bare
negation returns `true` while the native semantics return `false`.
In every case — the divergent one included — the result is the same in
any two reachable scopes (the fast path is scope-independent). -/
theorem claim3_amended (env : Env) (a b : BuiltinVal) (s1 s2 : Scope)
    (hs1 : ValidScope s1) (hs2 : ValidScope s2) :
    (∀ op ∈ surfaceBinaryOperators, op ≠ "<=" → op ≠ ">=" →
      _binary env op a.toJS b.toJS s1 = nativeBinary op a.toJS b.toJS) ∧
    (lessThanDefined b.toJS a.toJS = true →
      _binary env "<=" a.toJS b.toJS s1 = nativeBinary "<=" a.toJS b.toJS) ∧
    (lessThanDefined b.toJS a.toJS = false →
      _binary env "<=" a.toJS b.toJS s1 = .ok (.boolV true) ∧
      nativeBinary "<=" a.toJS b.toJS = .ok (.boolV false)) ∧
    (lessThanDefined a.toJS b.toJS = true →
      _binary env ">=" a.toJS b.toJS s1 = nativeBinary ">=" a.toJS b.toJS) ∧
    (lessThanDefined a.toJS b.toJS = false →
      _binary env ">=" a.toJS b.toJS s1 = .ok (.boolV true) ∧
      nativeBinary ">=" a.toJS b.toJS = .ok (.boolV false)) ∧
    (∀ op ∈ surfaceBinaryOperators,
      _binary env op a.toJS b.toJS s1 = _binary env op a.toJS b.toJS s2) ∧
    (∀ op ∈ unaryOperators,
      _unary env op a.toJS s1 = nativeUnary op a.toJS ∧
      _unary env op a.toJS s1 = _unary env op a.toJS s2) := by
  refine ⟨?_, ?_, ?_, ?_, ?_, ?_, ?_⟩
  · intro op hop h1 h2
    exact binary_fast_nonrel env op hop h1 h2 a b s1 hs1
  · intro hdef
    rw [le_builtin, native_le_builtin]
    rcases hopt : primLessThanOpt b.toJS a.toJS with _ | v
    · simp [lessThanDefined, hopt] at hdef
    · simp [primLessThan, hopt]
  · intro hundef
    rcases hopt : primLessThanOpt b.toJS a.toJS with _ | v
    · refine ⟨?_, ?_⟩
      · rw [le_builtin]; simp [primLessThan, hopt]
      · rw [native_le_builtin]; simp [hopt]
    · simp [lessThanDefined, hopt] at hundef
  · intro hdef
    rw [ge_builtin, native_ge_builtin]
    rcases hopt : primLessThanOpt a.toJS b.toJS with _ | v
    · simp [lessThanDefined, hopt] at hdef
    · simp [primLessThan, hopt]
  · intro hundef
    rcases hopt : primLessThanOpt a.toJS b.toJS with _ | v
    · refine ⟨?_, ?_⟩
      · rw [ge_builtin]; simp [primLessThan, hopt]
      · rw [native_ge_builtin]; simp [hopt]
    · simp [lessThanDefined, hopt] at hundef
  · intro op hop
    by_cases h1 : op = "<="
    · subst h1; rw [le_builtin, le_builtin]
    · by_cases h2 : op = ">="
      · subst h2; rw [ge_builtin, ge_builtin]
      · rw [binary_fast_nonrel env op hop h1 h2 a b s1 hs1,
          binary_fast_nonrel env op hop h1 h2 a b s2 hs2]
  · intro op hop
    refine ⟨unary_builtin env op hop a s1 hs1, ?_⟩
    rw [unary_builtin env op hop a s1 hs1, unary_builtin env op hop a s2 hs2]

/-- C3, witness: string subtraction in the default scope equals the
native semantics. -/
theorem claim3_witness :
    _binary trivialEnv "-" (BuiltinVal.str "3").toJS (BuiltinVal.str "4").toJS
      defaultOperators =
    nativeBinary "-" (BuiltinVal.str "3").toJS (BuiltinVal.str "4").toJS :=
  ((claim3_amended trivialEnv (BuiltinVal.str "3") (BuiltinVal.str "4")
      defaultOperators defaultOperators (by refine ⟨?_, ?_, ?_⟩ <;> decide)
      (by refine ⟨?_, ?_, ?_⟩ <;> decide)).1 "-" (by decide) (by decide) (by decide))

end OpShim
